import Mathlib

/-!
Shallow embedding of the hoot (post) controller of
`src/controllers/hoots.js`: post CRUD and the nested comment lifecycle
(add / edit / remove), including the validation, ownership checks and the
exact error statuses the handlers produce.

The persistence layer is modelled as a list of `Post` aggregates; each
request handler is a function from the store (plus the request data) to the
new store together with the HTTP response it sends.  Identifiers and user
ids are strings.  Fresh ids (`_id` values the database would mint) are
passed as explicit parameters.
-/

namespace Hoots

/-- A comment embedded in a hoot document (`comments` subdocument array). -/
structure Comment where
  id : String
  text : String
  author : String
deriving DecidableEq

/-- A hoot document (aggregate root of the `hoots` collection). -/
structure Post where
  id : String
  title : String
  text : String
  category : String
  author : String
  comments : List Comment
  createdAt : Nat
deriving DecidableEq

/-- Bodies a response can carry: an error object `{err}`, a message object
`{message}`, a bare string (the delete handler sends `json('...')`), a
post, a comment, or JSON `null` (serialising a null document). -/
inductive RespBody where
  | errMsg (s : String)
  | message (s : String)
  | str (s : String)
  | post (p : Post)
  | comment (c : Comment)
  | nullBody
deriving DecidableEq

/-- An HTTP response: status code plus JSON body. -/
structure Response where
  status : Nat
  body : RespBody
deriving DecidableEq

/-- `VALID_CATEGORIES` from src/controllers/hoots.js line 7. -/
def VALID_CATEGORIES : List String :=
  ["News", "Sports", "Games", "Movies", "Music", "Television"]

/-- A create/update request body for a post.  The spec fixes the payload
fields `title`, `text`, `category`; the handlers pass the body through to
the store unfiltered, so the client-controlled `author` and `_id` members
are modelled as well (`none` = field absent from the JSON object). -/
structure HootBody where
  title : Option String
  text : Option String
  category : Option String
  author : Option String
  id : Option String
deriving DecidableEq

/-- A comment request body: payload fields `text` and a possible
client-supplied `author` member. -/
structure CommentBody where
  text : Option String
  author : Option String
deriving DecidableEq

/-- JS `String.prototype.trim`: drop leading and trailing whitespace. -/
def jsTrim (s : String) : String :=
  ⟨((s.data.dropWhile Char.isWhitespace).reverse.dropWhile
      Char.isWhitespace).reverse⟩

/-- JS `!req.body.x?.trim()`: true when the field is absent or trims to
the empty string. -/
def blankOpt : Option String → Bool
  | none => true
  | some s => jsTrim s == ""

/-- JS `req.body.x?.trim() === ""`: true only when the field is present
and trims to the empty string (an absent field compares false). -/
def presentBlank : Option String → Bool
  | none => false
  | some s => jsTrim s == ""

/-- JS truthiness of `req.body.category` (update handler line 103): an
absent field and the empty string are both falsy. -/
def catTruthy : Option String → Bool
  | none => false
  | some c => c != ""

/-- `VALID_CATEGORIES.includes(req.body.category)` where the field may be
absent (`undefined` is never in the list). -/
def catValid : Option String → Bool
  | none => false
  | some c => VALID_CATEGORIES.contains c

/-- `Hoot.findById`: first document whose `_id` matches. -/
def findById (store : List Post) (hootId : String) : Option Post :=
  store.find? (fun p => p.id == hootId)

/-- Replace the (first, and in a real store only) document with the given
`_id` by `q`: the write performed by `findByIdAndUpdate` once it has
matched a document. -/
def storeReplace : List Post → String → Post → List Post
  | [], _, _ => []
  | p :: rest, hootId, q =>
    if p.id == hootId then q :: rest else p :: storeReplace rest hootId q

/-- Delete the matched document: the write performed by
`findByIdAndDelete`. -/
def storeErase : List Post → String → List Post
  | [], _ => []
  | p :: rest, hootId =>
    if p.id == hootId then rest else p :: storeErase rest hootId

/-- The `$set` a plain `req.body` update document performs on a matched
hoot: every present payload field overwrites the stored one.  `_id` is
handled separately by `updateHoot` (Modelled from the spec: the store
rejects writes that modify the immutable `id`, per §3 "id: ... immutable"),
and `comments`/`createdAt` are not payload fields (§6). -/
def applyBody (p : Post) (b : HootBody) : Post :=
  { p with
    title := b.title.getD p.title
    text := b.text.getD p.text
    category := b.category.getD p.category
    author := b.author.getD p.author }

/-- POST `/hoots` (src/controllers/hoots.js lines 11-50).  Category must be
in `VALID_CATEGORIES`; title and text must be present and non-blank after
trimming; then `req.body.author` is overwritten with the caller and the
document is created with an empty comment list.  `newId`/`now` stand for
the `_id` and `createdAt` the database mints. -/
def createHoot (store : List Post) (body : HootBody) (user : String)
    (newId : String) (now : Nat) : List Post × Response :=
  if ¬ catValid body.category then
    (store, ⟨400, .errMsg "Invalid category selected."⟩)
  else if blankOpt body.text || blankOpt body.title then
    (store, ⟨400, .errMsg "Title and text are required."⟩)
  else
    let p : Post :=
      { id := newId
        title := body.title.getD ""
        text := body.text.getD ""
        category := body.category.getD ""
        author := user
        comments := []
        createdAt := now }
    (store ++ [p], ⟨201, .post p⟩)

/-- GET `/hoots/:hootId` (lines 73-83).  The 404 branch lacks a `return`,
so the handler falls through and also executes the final
`res.status(200).json(hoot)`; the result is the list of responses the
handler attempts, in order. -/
def getHoot (store : List Post) (hootId : String) : List Response :=
  match findById store hootId with
  | none =>
      [⟨404, .errMsg "We cannot find this hoot, please select another hoot from the list."⟩,
       ⟨200, .nullBody⟩]
  | some h => [⟨200, .post h⟩]

/-- PUT `/hoots/:hootId` (lines 87-128).  Existence check, then ownership,
then category validation (skipped for a falsy category), then a
present-but-blank check on text/title, then `findByIdAndUpdate` with the
raw `req.body`.  A payload `_id` differing from the stored one makes the
store reject the write (caught as 500); any other present field, author
included, is applied. -/
def updateHoot (store : List Post) (hootId : String) (body : HootBody)
    (user : String) : List Post × Response :=
  match findById store hootId with
  | none => (store, ⟨404, .errMsg "Hoot not found"⟩)
  | some hoot =>
    if hoot.author ≠ user then
      (store, ⟨403, .errMsg "Not allowed to edit this hoot"⟩)
    else if catTruthy body.category && !(catValid body.category) then
      (store, ⟨400, .errMsg "Invalid category selected."⟩)
    else if presentBlank body.text || presentBlank body.title then
      (store, ⟨400, .errMsg "Title and text cannot be empty."⟩)
    else
      match body.id with
      | some i =>
        if i ≠ hootId then
          (store, ⟨500, .errMsg "Performing an update on the path _id would modify the immutable field _id"⟩)
        else
          let q := applyBody hoot body
          (storeReplace store hootId q, ⟨200, .post q⟩)
      | none =>
          let q := applyBody hoot body
          (storeReplace store hootId q, ⟨200, .post q⟩)

/-- DELETE `/hoots/:hootId` (lines 132-144).  There is no existence check:
`hoot.author` is dereferenced immediately, so a missing hoot throws a
TypeError that the catch block turns into a 500.  Ownership failure is a
403 whose body is a bare string. -/
def deleteHoot (store : List Post) (hootId : String) (user : String) :
    List Post × Response :=
  match findById store hootId with
  | none =>
      (store, ⟨500, .errMsg "Cannot read properties of null (reading author)"⟩)
  | some hoot =>
    if hoot.author ≠ user then
      (store, ⟨403, .str "You are not allowed to delete this hoot!"⟩)
    else
      (storeErase store hootId, ⟨200, .post hoot⟩)

/-- Validation of a comment subdocument (Modelled from the spec: the
comment schema in models/hoot.js, absent from src/, makes `text` a
required non-empty string — §3 "text: required non-empty string"; an
absent or empty `text` fails validation, which `runValidators`/`save`
enforce before any write). -/
def commentTextValid : Option String → Bool
  | none => false
  | some t => t != ""

/-- POST `/hoots/:hootId/comments` (lines 147-176).  `req.body.author` is
overwritten with the caller, then a single atomic
`findByIdAndUpdate( $push: comments )` with `runValidators` appends the
comment; validation errors throw before the write (500 via the catch), a
null result is a 404, otherwise the handler returns `comments.at(-1)`,
the newly appended comment, with status 201. -/
def addComment (store : List Post) (hootId : String) (body : CommentBody)
    (user : String) (newCommentId : String) : List Post × Response :=
  if ¬ commentTextValid body.text then
    (store, ⟨500, .errMsg "Hoot validation failed: comments.text: Path text is required."⟩)
  else
    match findById store hootId with
    | none => (store, ⟨404, .errMsg "Hoot not found"⟩)
    | some hoot =>
      let c : Comment :=
        { id := newCommentId, text := body.text.getD "", author := user }
      let q := { hoot with comments := hoot.comments ++ [c] }
      (storeReplace store hootId q, ⟨201, .comment c⟩)

/-- PUT `/hoots/:hootId/comments/:commentId` (lines 179-196).  No
existence checks: a missing hoot throws on `hoot.comments` and a missing
comment throws on `comment.author`, both caught as 500.  A non-author
caller gets 403; otherwise `comment.text` is set from the payload and the
aggregate is saved, which re-validates the comment (Modelled from the
spec: required non-empty `text`, so an absent or empty payload text makes
`save` throw and nothing persists). -/
def editComment (store : List Post) (hootId : String) (commentId : String)
    (body : CommentBody) (user : String) : List Post × Response :=
  match findById store hootId with
  | none =>
      (store, ⟨500, .errMsg "Cannot read properties of null (reading comments)"⟩)
  | some hoot =>
    match hoot.comments.find? (fun c => c.id == commentId) with
    | none =>
        (store, ⟨500, .errMsg "Cannot read properties of null (reading author)"⟩)
    | some comment =>
      if comment.author ≠ user then
        (store, ⟨403, .message "You are not authorized to edit this comment"⟩)
      else if ¬ commentTextValid body.text then
        (store, ⟨500, .errMsg "Hoot validation failed: comments.text: Path text is required."⟩)
      else
        let q := { hoot with
          comments := hoot.comments.map (fun c =>
            if c.id == commentId then { c with text := body.text.getD "" } else c) }
        (storeReplace store hootId q, ⟨200, .message "Comment updated successfully"⟩)

/-- DELETE `/hoots/:hootId/comments/:commentId` (lines 200-217).  Same
missing-hoot / missing-comment TypeErrors (500) and 403 as the edit
handler; on success `comments.remove( _id )` pulls the matching
subdocument and the aggregate is saved. -/
def removeComment (store : List Post) (hootId : String) (commentId : String)
    (user : String) : List Post × Response :=
  match findById store hootId with
  | none =>
      (store, ⟨500, .errMsg "Cannot read properties of null (reading comments)"⟩)
  | some hoot =>
    match hoot.comments.find? (fun c => c.id == commentId) with
    | none =>
        (store, ⟨500, .errMsg "Cannot read properties of null (reading author)"⟩)
    | some comment =>
      if comment.author ≠ user then
        (store, ⟨403, .message "You are not authorized to edit this comment"⟩)
      else
        let q := { hoot with
          comments := hoot.comments.filter (fun c => c.id != commentId) }
        (storeReplace store hootId q, ⟨200, .message "Comment deleted successfully"⟩)

/-- A mutating request, for stating store invariants uniformly. -/
inductive Request where
  | create (body : HootBody) (user newId : String) (now : Nat)
  | update (hootId : String) (body : HootBody) (user : String)
  | destroy (hootId user : String)
  | addC (hootId : String) (body : CommentBody) (user newCommentId : String)
  | editC (hootId commentId : String) (body : CommentBody) (user : String)
  | removeC (hootId commentId user : String)

/-- Dispatch a request to its handler. -/
def step (store : List Post) : Request → List Post × Response
  | .create body user newId now => createHoot store body user newId now
  | .update hootId body user => updateHoot store hootId body user
  | .destroy hootId user => deleteHoot store hootId user
  | .addC hootId body user newCommentId => addComment store hootId body user newCommentId
  | .editC hootId commentId body user => editComment store hootId commentId body user
  | .removeC hootId commentId user => removeComment store hootId commentId user

/-- Every comment stored anywhere has non-empty text. -/
def textInv (store : List Post) : Prop :=
  ∀ p ∈ store, ∀ c ∈ p.comments, c.text ≠ ""

instance : DecidablePred textInv := fun store =>
  inferInstanceAs (Decidable (∀ p ∈ store, ∀ c ∈ p.comments, c.text ≠ ""))

/-! Concrete fixtures for witnesses and counterexamples. -/

/-- A sample stored hoot. -/
def samplePost : Post :=
  { id := "h1", title := "Hello", text := "Body", category := "News",
    author := "alice",
    comments := [⟨"c1", "first", "alice"⟩, ⟨"c2", "second", "bob"⟩,
                 ⟨"c3", "third", "alice"⟩],
    createdAt := 5 }

/-- A hoot with no comments. -/
def emptyPost : Post :=
  { id := "h2", title := "T", text := "X", category := "Games",
    author := "carol", comments := [], createdAt := 9 }

/-! Helper lemmas about the store operations. -/

/-- A document found by id has that id. -/
theorem findById_id {store : List Post} {hootId : String} {hoot : Post}
    (h : findById store hootId = some hoot) : hoot.id = hootId := by
  have := List.find?_some h
  simpa using this

/-- Replacing the matched document makes a later lookup return the
replacement, provided it keeps the id. -/
theorem findById_storeReplace {store : List Post} {hootId : String}
    {q hoot : Post} (hq : q.id = hootId)
    (hfind : findById store hootId = some hoot) :
    findById (storeReplace store hootId q) hootId = some q := by
  induction store with
  | nil => simp [findById] at hfind
  | cons p rest ih =>
    by_cases h : (p.id == hootId : Bool)
    · simp [storeReplace, h, findById, List.find?_cons_of_pos, hq]
    · have hfind' : findById rest hootId = some hoot := by
        simpa [findById, List.find?_cons_of_neg, h] using hfind
      have := ih hfind'
      simpa [storeReplace, h, findById, List.find?_cons_of_neg] using this

/-- Every document of the replaced store is an old document or the
replacement. -/
theorem mem_storeReplace {store : List Post} {hootId : String} {q p : Post}
    (h : p ∈ storeReplace store hootId q) : p ∈ store ∨ p = q := by
  induction store with
  | nil => simp [storeReplace] at h
  | cons r rest ih =>
    by_cases hr : (r.id == hootId : Bool)
    · simp only [storeReplace, if_pos hr, List.mem_cons] at h
      rcases h with h | h
      · right; exact h
      · left; exact List.mem_cons_of_mem _ h
    · simp only [storeReplace, if_neg hr, List.mem_cons] at h
      rcases h with h | h
      · left; simp [h]
      · rcases ih h with h' | h'
        · left; exact List.mem_cons_of_mem _ h'
        · right; exact h'

/-- Erasing a document never adds documents. -/
theorem mem_storeErase {store : List Post} {hootId : String} {p : Post}
    (h : p ∈ storeErase store hootId) : p ∈ store := by
  induction store with
  | nil => simp [storeErase] at h
  | cons r rest ih =>
    by_cases hr : (r.id == hootId : Bool)
    · simp only [storeErase, if_pos hr] at h
      exact List.mem_cons_of_mem _ h
    · simp only [storeErase, if_neg hr, List.mem_cons] at h
      rcases h with h | h
      · simp [h]
      · exact List.mem_cons_of_mem _ (ih h)

/-- Replacing the matched document by one that agrees on `f` leaves the
image of the store under `f` unchanged. -/
theorem map_storeReplace {α : Type} {store : List Post} {hootId : String}
    {q hoot : Post} (f : Post → α)
    (hfind : findById store hootId = some hoot) (hf : f q = f hoot) :
    (storeReplace store hootId q).map f = store.map f := by
  induction store with
  | nil => rfl
  | cons p rest ih =>
    by_cases h : (p.id == hootId : Bool)
    · have hp : p = hoot := by
        simpa [findById, List.find?_cons_of_pos, h] using hfind
      subst hp
      simp [storeReplace, h, hf]
    · have hfind' : findById rest hootId = some hoot := by
        simpa [findById, List.find?_cons_of_neg, h] using hfind
      simp [storeReplace, h, ih hfind']

/-! Claim theorems. -/

/-- Claim C6: for every successful Create-Post request the persisted
Post's author equals the authenticated caller's identity, for every
request payload — including payloads containing an author field, which has
no influence on the stored author. -/
theorem create_author_is_caller (store : List Post) (body : HootBody)
    (user newId : String) (now : Nat)
    (h : (createHoot store body user newId now).2.status = 201) :
    ∃ p : Post, (createHoot store body user newId now).1 = store ++ [p] ∧
      p.author = user := by
  unfold createHoot at h ⊢
  by_cases h1 : (catValid body.category : Bool)
  · by_cases h2 : (blankOpt body.text || blankOpt body.title : Bool)
    · simp [h1, h2] at h
    · refine ⟨{ id := newId, title := body.title.getD "",
                text := body.text.getD "", category := body.category.getD "",
                author := user, comments := [], createdAt := now }, ?_, rfl⟩
      simp [h1, h2]
  · simp [h1] at h

/-- Witness for C6: a concrete payload that even carries
`author := "mallory"`; the stored post is authored by the caller. -/
theorem create_author_is_caller_witness :
    ∃ p : Post,
      (createHoot [] ⟨some "T", some "X", some "News", some "mallory", none⟩
        "alice" "h9" 3).1 = [] ++ [p] ∧ p.author = "alice" :=
  create_author_is_caller [] ⟨some "T", some "X", some "News", some "mallory", none⟩
    "alice" "h9" 3 (by decide)

/-- Claim C7: a successful Add-Comment on an existing post appends the new
comment as the last element of the comment sequence, its author is the
caller, and the handler returns exactly that element (status 201). -/
theorem addComment_appends_last (store : List Post) (hootId : String)
    (body : CommentBody) (user newCommentId : String) (hoot : Post)
    (hfind : findById store hootId = some hoot)
    (hval : commentTextValid body.text = true) :
    ∃ c : Comment,
      (addComment store hootId body user newCommentId).2 = ⟨201, .comment c⟩ ∧
      c.author = user ∧
      findById (addComment store hootId body user newCommentId).1 hootId =
        some { hoot with comments := hoot.comments ++ [c] } := by
  refine ⟨⟨newCommentId, body.text.getD "", user⟩, ?_, rfl, ?_⟩
  · simp [addComment, hval, hfind]
  · have hid : hoot.id = hootId := findById_id hfind
    have hq : ({ hoot with
        comments := hoot.comments ++ [⟨newCommentId, body.text.getD "", user⟩] } : Post).id
        = hootId := hid
    have := findById_storeReplace hq hfind
    simpa [addComment, hval, hfind] using this

/-- Witness for C7 at a concrete store and payload. -/
theorem addComment_appends_last_witness :
    ∃ c : Comment,
      (addComment [samplePost] "h1" ⟨some "hey", some "evil"⟩ "dave" "c9").2 =
        ⟨201, .comment c⟩ ∧
      c.author = "dave" ∧
      findById (addComment [samplePost] "h1" ⟨some "hey", some "evil"⟩ "dave" "c9").1 "h1" =
        some { samplePost with comments := samplePost.comments ++ [c] } :=
  addComment_appends_last [samplePost] "h1" ⟨some "hey", some "evil"⟩ "dave" "c9"
    samplePost (by decide) (by decide)

/-- Claim C10: Show-Post on an id that resolves to no hoot sends the 404
response and then, the branch lacking a return, also attempts a second 200
response whose body is null. -/
theorem show_missing_double_response (store : List Post) (hootId : String)
    (h : findById store hootId = none) :
    getHoot store hootId =
      [⟨404, .errMsg "We cannot find this hoot, please select another hoot from the list."⟩,
       ⟨200, .nullBody⟩] := by
  simp [getHoot, h]

/-- Witness for C10: a concrete store without the requested id. -/
theorem show_missing_double_response_witness :
    getHoot [samplePost] "nope" =
      [⟨404, .errMsg "We cannot find this hoot, please select another hoot from the list."⟩,
       ⟨200, .nullBody⟩] :=
  show_missing_double_response [samplePost] "nope" (by decide)

/-- Claim C2 counterexample: deleting a hoot whose id resolves to nothing
answers with status 500, not the claimed 404 — the handler has no
existence check and dereferences the missing document. -/
theorem delete_missing_counterexample :
    findById [] "h1" = none ∧
    (deleteHoot [] "h1" "u1").2.status = 500 ∧
    (deleteHoot [] "h1" "u1").2.status ≠ 404 := by decide

/-- Claim C2 amended: Delete-Post on a missing id signals InternalError
(500) — the ownership check dereferences the absent document — and the 403
Forbidden answer occurs only once the document was actually loaded. -/
theorem delete_missing_signals_500 (store : List Post) (hootId user : String) :
    (findById store hootId = none →
      deleteHoot store hootId user =
        (store, ⟨500, .errMsg "Cannot read properties of null (reading author)"⟩)) ∧
    (∀ hoot, findById store hootId = some hoot → hoot.author ≠ user →
      deleteHoot store hootId user =
        (store, ⟨403, .str "You are not allowed to delete this hoot!"⟩)) := by
  constructor
  · intro h; simp [deleteHoot, h]
  · intro hoot hfind hne; simp [deleteHoot, hfind, hne]

/-- Witness for the amended C2: the empty store answers 500; an existing
hoot with a different author answers 403. -/
theorem delete_missing_signals_500_witness :
    deleteHoot [] "h1" "u1" =
      ([], ⟨500, .errMsg "Cannot read properties of null (reading author)"⟩) ∧
    deleteHoot [samplePost] "h1" "mallory" =
      ([samplePost], ⟨403, .str "You are not allowed to delete this hoot!"⟩) :=
  ⟨(delete_missing_signals_500 [] "h1" "u1").1 rfl,
   (delete_missing_signals_500 [samplePost] "h1" "mallory").2 samplePost rfl (by decide)⟩

/-- Claim C4 counterexample: adding a comment with empty text to an
existing hoot fails with status 500 — the schema validation error is
caught by the generic handler — not with the claimed 400; no comment is
appended.  A whitespace-only text, moreover, is not rejected at all: it is
appended with status 201. -/
theorem addComment_empty_counterexample :
    (addComment [samplePost] "h1" ⟨some "", none⟩ "dave" "c9").2.status = 500 ∧
    (addComment [samplePost] "h1" ⟨some "", none⟩ "dave" "c9").2.status ≠ 400 ∧
    (addComment [samplePost] "h1" ⟨some "", none⟩ "dave" "c9").1 = [samplePost] ∧
    jsTrim " " = "" ∧
    (addComment [samplePost] "h1" ⟨some " ", none⟩ "dave" "c9").2.status = 201 := by
  decide

/-- Claim C4 amended: Add-Comment with an absent or empty comment text
fails with status 500 (the validation error surfaces through the catch
block, not as a 400) and leaves the store unchanged, so no comment is
appended. -/
theorem addComment_invalid_text_500 (store : List Post) (hootId : String)
    (body : CommentBody) (user newCommentId : String)
    (h : commentTextValid body.text = false) :
    addComment store hootId body user newCommentId =
      (store, ⟨500, .errMsg "Hoot validation failed: comments.text: Path text is required."⟩) := by
  simp [addComment, h]

/-- Witness for the amended C4 at empty text on an existing hoot. -/
theorem addComment_invalid_text_500_witness :
    addComment [samplePost] "h1" ⟨some "", none⟩ "dave" "c9" =
      ([samplePost], ⟨500, .errMsg "Hoot validation failed: comments.text: Path text is required."⟩) :=
  addComment_invalid_text_500 [samplePost] "h1" ⟨some "", none⟩ "dave" "c9" rfl

/-- Claim C3 counterexample: the comment mutation handlers answer 500,
not the claimed 404, both when the hoot id resolves to nothing and when
the comment id is not found in the loaded hoot. -/
theorem comment_ops_missing_counterexample :
    (editComment [] "h1" "c1" ⟨some "t", none⟩ "alice").2.status ≠ 404 ∧
    (removeComment [] "h1" "c1" "alice").2.status ≠ 404 ∧
    (editComment [samplePost] "h1" "c9" ⟨some "t", none⟩ "alice").2.status ≠ 404 ∧
    (removeComment [samplePost] "h1" "c9" "alice").2.status ≠ 404 := by decide

/-- Claim C3 amended: for Edit-Comment and Remove-Comment, a Post id that
does not resolve, or a comment id not found within the loaded Post, makes
the handler answer InternalError (500) — a null dereference caught by the
generic handler — with the store unchanged; NotFound (404) is never
produced there. -/
theorem comment_ops_missing_500 (store : List Post) (hootId commentId : String)
    (body : CommentBody) (user : String) :
    (findById store hootId = none →
      editComment store hootId commentId body user =
        (store, ⟨500, .errMsg "Cannot read properties of null (reading comments)"⟩) ∧
      removeComment store hootId commentId user =
        (store, ⟨500, .errMsg "Cannot read properties of null (reading comments)"⟩)) ∧
    (∀ hoot, findById store hootId = some hoot →
      hoot.comments.find? (fun c => c.id == commentId) = none →
      editComment store hootId commentId body user =
        (store, ⟨500, .errMsg "Cannot read properties of null (reading author)"⟩) ∧
      removeComment store hootId commentId user =
        (store, ⟨500, .errMsg "Cannot read properties of null (reading author)"⟩)) := by
  constructor
  · intro h
    exact ⟨by simp [editComment, h], by simp [removeComment, h]⟩
  · intro hoot hfind hc
    exact ⟨by simp [editComment, hfind, hc], by simp [removeComment, hfind, hc]⟩

/-- Witness for the amended C3: both miss shapes at concrete inputs. -/
theorem comment_ops_missing_500_witness :
    (editComment [] "h1" "c1" ⟨some "t", none⟩ "alice" =
       ([], ⟨500, .errMsg "Cannot read properties of null (reading comments)"⟩) ∧
     removeComment [] "h1" "c1" "alice" =
       ([], ⟨500, .errMsg "Cannot read properties of null (reading comments)"⟩)) ∧
    (editComment [samplePost] "h1" "c9" ⟨some "t", none⟩ "alice" =
       ([samplePost], ⟨500, .errMsg "Cannot read properties of null (reading author)"⟩) ∧
     removeComment [samplePost] "h1" "c9" "alice" =
       ([samplePost], ⟨500, .errMsg "Cannot read properties of null (reading author)"⟩)) :=
  ⟨(comment_ops_missing_500 [] "h1" "c1" ⟨some "t", none⟩ "alice").1 rfl,
   (comment_ops_missing_500 [samplePost] "h1" "c9" ⟨some "t", none⟩ "alice").2
     samplePost rfl (by decide)⟩

/-- An update payload that smuggles an author field. -/
def authorPayload : HootBody := ⟨none, none, none, some "bob", none⟩

/-- Claim C1 counterexample: an Update-Post request by the author whose
payload carries an author field does change the stored author ("alice"
becomes "bob"), so author is not preserved for every payload. -/
theorem update_author_counterexample :
    samplePost.author = "alice" ∧
    (updateHoot [samplePost] "h1" authorPayload "alice").1.map Post.author = ["bob"] ∧
    ("bob" : String) ≠ "alice" := by decide

/-- Claim C1 amended: Update-Post never changes any stored id, for every
payload; and whenever the payload carries no author field, the stored
(id, author) pairs are also unchanged.  A payload author field, by
contrast, overwrites the stored author. -/
theorem update_preserves_id_always_author_when_absent
    (store : List Post) (hootId : String) (body : HootBody) (user : String) :
    (updateHoot store hootId body user).1.map Post.id = store.map Post.id ∧
    (body.author = none →
      (updateHoot store hootId body user).1.map (fun p => (p.id, p.author)) =
        store.map (fun p => (p.id, p.author))) := by
  unfold updateHoot
  cases hfind : findById store hootId with
  | none => simp
  | some hoot =>
    have key1 : (storeReplace store hootId (applyBody hoot body)).map Post.id
        = store.map Post.id := map_storeReplace Post.id hfind rfl
    have key2 : body.author = none →
        (storeReplace store hootId (applyBody hoot body)).map
            (fun p => (p.id, p.author))
          = store.map (fun p => (p.id, p.author)) := fun hnone =>
      map_storeReplace _ hfind (by simp [applyBody, hnone])
    by_cases h1 : hoot.author = user
    · by_cases h2 : (catTruthy body.category && !(catValid body.category) : Bool)
      · simp [h1, h2]
      · by_cases h3 : (presentBlank body.text || presentBlank body.title : Bool)
        · simp [h1, h2, h3]
        · cases hb : body.id with
          | none => simpa [h1, h2, h3] using ⟨key1, key2⟩
          | some i =>
            by_cases hi : i = hootId
            · simpa [h1, h2, h3, hi] using ⟨key1, key2⟩
            · simp [h1, h2, h3, hi]
    · simp [h1]

/-- Witness for the amended C1: a title-only payload leaves every stored
(id, author) pair unchanged. -/
theorem update_preserves_id_always_author_when_absent_witness :
    (updateHoot [samplePost] "h1" ⟨some "NewTitle", none, none, none, none⟩
        "alice").1.map (fun p => (p.id, p.author)) =
      [samplePost].map (fun p => (p.id, p.author)) :=
  (update_preserves_id_always_author_when_absent [samplePost] "h1"
    ⟨some "NewTitle", none, none, none, none⟩ "alice").2 rfl

/-- Searching past a prefix with no match continues in the suffix. -/
theorem find?_append_of_none {α : Type} {p : α → Bool} {l1 l2 : List α}
    (h : ∀ a ∈ l1, p a = false) : (l1 ++ l2).find? p = l2.find? p := by
  induction l1 with
  | nil => rfl
  | cons a t ih =>
    have ha := h a (List.mem_cons_self a t)
    rw [List.cons_append, List.find?_cons_of_neg _ (by simp [ha])]
    exact ih (fun b hb => h b (List.mem_cons_of_mem _ hb))

/-- Claim C8: Remove-Comment by the comment's author removes exactly the
identified comment from the sequence, the remaining comments keep their
relative order, and the removed id no longer resolves among the post's
comments. -/
theorem removeComment_exact (store : List Post) (hootId commentId user : String)
    (hoot : Post) (l1 l2 : List Comment) (c : Comment)
    (hfind : findById store hootId = some hoot)
    (hdecomp : hoot.comments = l1 ++ c :: l2)
    (hcid : c.id = commentId)
    (hl1 : ∀ c' ∈ l1, c'.id ≠ commentId)
    (hl2 : ∀ c' ∈ l2, c'.id ≠ commentId)
    (hauth : c.author = user) :
    (removeComment store hootId commentId user).2 =
      ⟨200, .message "Comment deleted successfully"⟩ ∧
    findById (removeComment store hootId commentId user).1 hootId =
      some { hoot with comments := l1 ++ l2 } ∧
    (l1 ++ l2).find? (fun c' => c'.id == commentId) = none := by
  have hid : hoot.id = hootId := findById_id hfind
  have hfc : hoot.comments.find? (fun c' => c'.id == commentId) = some c := by
    rw [hdecomp, find?_append_of_none (fun a ha => by simp [hl1 a ha])]
    rw [List.find?_cons_of_pos _ (by simp [hcid])]
  have hfl1 : l1.filter (fun c' => c'.id != commentId) = l1 :=
    List.filter_eq_self.mpr (fun a ha => by simp [hl1 a ha])
  have hfl2 : l2.filter (fun c' => c'.id != commentId) = l2 :=
    List.filter_eq_self.mpr (fun a ha => by simp [hl2 a ha])
  have hfilter : hoot.comments.filter (fun c' => c'.id != commentId) = l1 ++ l2 := by
    rw [hdecomp, List.filter_append, List.filter_cons]
    simp [hcid, hfl1, hfl2]
  refine ⟨?_, ?_, ?_⟩
  · simp [removeComment, hfind, hfc, hauth]
  · have hq : ({ hoot with
        comments := hoot.comments.filter (fun c' => c'.id != commentId) } : Post).id
        = hootId := hid
    have hrepl := findById_storeReplace hq hfind
    rw [hfilter] at hrepl
    simpa [removeComment, hfind, hfc, hauth, hfilter] using hrepl
  · exact List.find?_eq_none.mpr (fun a ha => by
      rcases List.mem_append.mp ha with h | h
      · simp [hl1 a h]
      · simp [hl2 a h])

/-- Witness for C8: "bob" removes the middle comment of the sample hoot;
the outer two comments survive in order and "c2" resolves no more. -/
theorem removeComment_exact_witness :
    (removeComment [samplePost] "h1" "c2" "bob").2 =
      ⟨200, .message "Comment deleted successfully"⟩ ∧
    findById (removeComment [samplePost] "h1" "c2" "bob").1 "h1" =
      some { samplePost with
        comments := [⟨"c1", "first", "alice"⟩] ++ [⟨"c3", "third", "alice"⟩] } ∧
    ([⟨"c1", "first", "alice"⟩] ++ [⟨"c3", "third", "alice"⟩] : List Comment).find?
      (fun c' => c'.id == "c2") = none :=
  removeComment_exact [samplePost] "h1" "c2" "bob" samplePost
    [⟨"c1", "first", "alice"⟩] [⟨"c3", "third", "alice"⟩] ⟨"c2", "second", "bob"⟩
    (by decide) (by decide) rfl (by decide) (by decide) rfl

/-- A successful Add-Comment leaves the appended-to hoot findable, with
the new comment appended. -/
theorem addComment_found (store : List Post) (hootId : String)
    (body : CommentBody) (user newCommentId : String) (hoot : Post)
    (hfind : findById store hootId = some hoot)
    (hval : commentTextValid body.text = true) :
    findById (addComment store hootId body user newCommentId).1 hootId =
      some { hoot with
        comments := hoot.comments ++ [⟨newCommentId, body.text.getD "", user⟩] } := by
  have hid : hoot.id = hootId := findById_id hfind
  have hq : ({ hoot with
      comments := hoot.comments ++ [⟨newCommentId, body.text.getD "", user⟩] } : Post).id
      = hootId := hid
  have := findById_storeReplace hq hfind
  simpa [addComment, hval, hfind] using this

/-- Claim C9: Add-Comment is one atomic targeted append against the store
(a single transition, not a load-then-save round trip), so when two
requests append their comments to the same existing hoot, both comments
are present afterwards under either interleaving — no lost update. -/
theorem concurrent_addComment_no_lost_update
    (store : List Post) (hootId : String) (b1 b2 : CommentBody)
    (u1 u2 cid1 cid2 : String) (hoot : Post)
    (hfind : findById store hootId = some hoot)
    (h1 : commentTextValid b1.text = true)
    (h2 : commentTextValid b2.text = true) :
    (∃ q, findById (addComment (addComment store hootId b1 u1 cid1).1
        hootId b2 u2 cid2).1 hootId = some q ∧
      (⟨cid1, b1.text.getD "", u1⟩ : Comment) ∈ q.comments ∧
      (⟨cid2, b2.text.getD "", u2⟩ : Comment) ∈ q.comments ∧
      q.comments = (hoot.comments ++ [⟨cid1, b1.text.getD "", u1⟩]) ++
        [⟨cid2, b2.text.getD "", u2⟩]) ∧
    (∃ q, findById (addComment (addComment store hootId b2 u2 cid2).1
        hootId b1 u1 cid1).1 hootId = some q ∧
      (⟨cid1, b1.text.getD "", u1⟩ : Comment) ∈ q.comments ∧
      (⟨cid2, b2.text.getD "", u2⟩ : Comment) ∈ q.comments ∧
      q.comments = (hoot.comments ++ [⟨cid2, b2.text.getD "", u2⟩]) ++
        [⟨cid1, b1.text.getD "", u1⟩]) := by
  have e1 := addComment_found store hootId b1 u1 cid1 hoot hfind h1
  have e12 := addComment_found _ hootId b2 u2 cid2 _ e1 h2
  have e2 := addComment_found store hootId b2 u2 cid2 hoot hfind h2
  have e21 := addComment_found _ hootId b1 u1 cid1 _ e2 h1
  exact ⟨⟨_, e12, by simp, by simp, rfl⟩, ⟨_, e21, by simp, by simp, rfl⟩⟩

/-- Witness for C9: two concrete comment additions to the sample hoot in
both orders. -/
theorem concurrent_addComment_no_lost_update_witness :
    (∃ q, findById (addComment (addComment [samplePost] "h1" ⟨some "one", none⟩
        "dave" "c8").1 "h1" ⟨some "two", none⟩ "erin" "c9").1 "h1" = some q ∧
      (⟨"c8", "one", "dave"⟩ : Comment) ∈ q.comments ∧
      (⟨"c9", "two", "erin"⟩ : Comment) ∈ q.comments ∧
      q.comments = (samplePost.comments ++
        [⟨"c8", "one", "dave"⟩]) ++
        [⟨"c9", "two", "erin"⟩]) ∧
    (∃ q, findById (addComment (addComment [samplePost] "h1" ⟨some "two", none⟩
        "erin" "c9").1 "h1" ⟨some "one", none⟩ "dave" "c8").1 "h1" = some q ∧
      (⟨"c8", "one", "dave"⟩ : Comment) ∈ q.comments ∧
      (⟨"c9", "two", "erin"⟩ : Comment) ∈ q.comments ∧
      q.comments = (samplePost.comments ++
        [⟨"c9", "two", "erin"⟩]) ++
        [⟨"c8", "one", "dave"⟩]) :=
  concurrent_addComment_no_lost_update [samplePost] "h1" ⟨some "one", none⟩
    ⟨some "two", none⟩ "dave" "erin" "c8" "c9" samplePost (by decide)
    (by decide) (by decide)

/-- Replacing a document by one whose comments all have non-empty text
preserves the store invariant. -/
theorem textInv_storeReplace {store : List Post} {hootId : String} {q : Post}
    (hInv : textInv store) (hq : ∀ c ∈ q.comments, c.text ≠ "") :
    textInv (storeReplace store hootId q) := by
  intro p hp
  rcases mem_storeReplace hp with h | h
  · exact hInv p h
  · rw [h]; exact hq

/-- Erasing a document preserves the store invariant. -/
theorem textInv_storeErase {store : List Post} {hootId : String}
    (hInv : textInv store) : textInv (storeErase store hootId) :=
  fun p hp => hInv p (mem_storeErase hp)

/-- A validated comment body carries a non-empty text. -/
theorem commentTextValid_getD {t : Option String}
    (h : commentTextValid t = true) : t.getD "" ≠ "" := by
  cases t with
  | none => simp [commentTextValid] at h
  | some s => simpa [commentTextValid] using h

/-- Claim C5: every stored comment has non-empty text (the schema makes
comment text a required non-empty string) and this invariant is preserved
by every operation; in particular, after any successful Edit-Comment the
store, the edited comment included, still satisfies it, for every request
payload. -/
theorem comment_text_invariant_preserved (store : List Post)
    (hInv : textInv store) :
    (∀ r : Request, textInv (step store r).1) ∧
    (∀ hootId commentId body user,
      (editComment store hootId commentId body user).2.status = 200 →
      textInv (editComment store hootId commentId body user).1) := by
  have hedit : ∀ hootId commentId body user,
      textInv (editComment store hootId commentId body user).1 := by
    intro hootId commentId body user
    cases hfind : findById store hootId with
    | none => simpa [editComment, hfind] using hInv
    | some hoot =>
      cases hfc : hoot.comments.find? (fun c => c.id == commentId) with
      | none => simpa [editComment, hfind, hfc] using hInv
      | some comment =>
        by_cases ha : comment.author = user
        · by_cases hv : (commentTextValid body.text : Bool)
          · have hmem : hoot ∈ store := List.mem_of_find?_eq_some hfind
            have hrepl : textInv (storeReplace store hootId
                { hoot with comments := hoot.comments.map (fun c =>
                    if c.id == commentId then { c with text := body.text.getD "" }
                    else c) }) := by
              refine textInv_storeReplace hInv ?_
              intro c hc
              rcases List.mem_map.mp hc with ⟨c0, hc0, hc0eq⟩
              by_cases hid : (c0.id == commentId : Bool)
              · rw [← hc0eq]
                simpa [hid] using commentTextValid_getD hv
              · rw [← hc0eq]
                simpa [hid] using hInv hoot hmem c0 hc0
            simpa [editComment, hfind, hfc, ha, hv] using hrepl
          · simpa [editComment, hfind, hfc, ha, hv] using hInv
        · simpa [editComment, hfind, hfc, ha] using hInv
  constructor
  · intro r
    cases r with
    | create body user newId now =>
      show textInv (createHoot store body user newId now).1
      by_cases h1 : (catValid body.category : Bool)
      · by_cases h2 : (blankOpt body.text || blankOpt body.title : Bool)
        · simpa [createHoot, h1, h2] using hInv
        · have hnew : textInv (store ++
              [⟨newId, body.title.getD "", body.text.getD "",
                body.category.getD "", user, [], now⟩]) := by
            intro p hp
            rcases List.mem_append.mp hp with h | h
            · exact hInv p h
            · intro c hc
              simp only [List.mem_singleton] at h
              rw [h] at hc
              simp at hc
          simpa [createHoot, h1, h2] using hnew
      · simpa [createHoot, h1] using hInv
    | update hootId body user =>
      show textInv (updateHoot store hootId body user).1
      cases hfind : findById store hootId with
      | none => simpa [updateHoot, hfind] using hInv
      | some hoot =>
        have hmem : hoot ∈ store := List.mem_of_find?_eq_some hfind
        have happ : textInv (storeReplace store hootId (applyBody hoot body)) :=
          textInv_storeReplace hInv (fun c hc => hInv hoot hmem c hc)
        by_cases h1 : hoot.author = user
        · by_cases h2 : (catTruthy body.category && !(catValid body.category) : Bool)
          · simpa [updateHoot, hfind, h1, h2] using hInv
          · by_cases h3 : (presentBlank body.text || presentBlank body.title : Bool)
            · simpa [updateHoot, hfind, h1, h2, h3] using hInv
            · cases hb : body.id with
              | none =>
                  simpa [updateHoot, applyBody, hfind, h1, h2, h3, hb] using happ
              | some i =>
                by_cases hi : i = hootId
                · simpa [updateHoot, applyBody, hfind, h1, h2, h3, hb, hi] using happ
                · simpa [updateHoot, hfind, h1, h2, h3, hb, hi] using hInv
        · simpa [updateHoot, hfind, h1] using hInv
    | destroy hootId user =>
      show textInv (deleteHoot store hootId user).1
      cases hfind : findById store hootId with
      | none => simpa [deleteHoot, hfind] using hInv
      | some hoot =>
        by_cases h1 : hoot.author = user
        · simpa [deleteHoot, hfind, h1] using
            @textInv_storeErase store hootId hInv
        · simpa [deleteHoot, hfind, h1] using hInv
    | addC hootId body user newCommentId =>
      show textInv (addComment store hootId body user newCommentId).1
      by_cases hv : (commentTextValid body.text : Bool)
      · cases hfind : findById store hootId with
        | none => simpa [addComment, hv, hfind] using hInv
        | some hoot =>
          have hmem : hoot ∈ store := List.mem_of_find?_eq_some hfind
          have hrepl : textInv (storeReplace store hootId
              { hoot with comments := hoot.comments ++
                [⟨newCommentId, body.text.getD "", user⟩] }) := by
            refine textInv_storeReplace hInv ?_
            intro c hc
            rcases List.mem_append.mp hc with h | h
            · exact hInv hoot hmem c h
            · simp only [List.mem_singleton] at h
              rw [h]
              exact commentTextValid_getD hv
          simpa [addComment, hv, hfind] using hrepl
      · simpa [addComment, hv] using hInv
    | editC hootId commentId body user =>
      exact hedit hootId commentId body user
    | removeC hootId commentId user =>
      show textInv (removeComment store hootId commentId user).1
      cases hfind : findById store hootId with
      | none => simpa [removeComment, hfind] using hInv
      | some hoot =>
        cases hfc : hoot.comments.find? (fun c => c.id == commentId) with
        | none => simpa [removeComment, hfind, hfc] using hInv
        | some comment =>
          have hmem : hoot ∈ store := List.mem_of_find?_eq_some hfind
          by_cases ha : comment.author = user
          · have hrepl : textInv (storeReplace store hootId
                { hoot with comments :=
                    hoot.comments.filter (fun c => c.id != commentId) }) := by
              refine textInv_storeReplace hInv ?_
              intro c hc
              exact hInv hoot hmem c (List.mem_of_mem_filter hc)
            simpa [removeComment, hfind, hfc, ha] using hrepl
          · simpa [removeComment, hfind, hfc, ha] using hInv
  · intro hootId commentId body user _
    exact hedit hootId commentId body user

/-- Witness for C5: the sample store satisfies the invariant and an edit
of comment "c2" by "bob" preserves it. -/
theorem comment_text_invariant_preserved_witness :
    textInv (step [samplePost] (.editC "h1" "c2" ⟨some "updated", none⟩ "bob")).1 :=
  (comment_text_invariant_preserved [samplePost] (by decide)).1
    (.editC "h1" "c2" ⟨some "updated", none⟩ "bob")

end Hoots
